import Mathlib

/-!
Verification of the core of the `folder-mcp` Python embedding worker
(`src/infrastructure/embeddings/python/`): the JSON-RPC stdio dispatcher
(`main.py`), the embedding handler with its priority queue, crawling pause,
context-window truncation and adaptive OOM batching
(`handlers/embedding_handler.py`), and the KeyBERT re-ranking
(`handlers/semantic_handler.py`).

Python strings are modelled as lists of characters (`PyStr`), floats that
carry scores, weights and wall-clock times as rationals, and the external
encoder / KeyBERT libraries as oracle functions passed in as parameters.
-/

/-- Python strings, modelled as their character sequences (`len` is
`List.length`, `s[:n]` is `List.take n`, `a in b` is infix containment). -/
abbrev PyStr := List Char

/-- Python `needle in hay` on strings: substring containment. -/
def pyIn (needle hay : PyStr) : Bool := decide (needle <:+: hay)

/-- Python `s.lower()`. -/
def pyLower (s : PyStr) : PyStr := s.map Char.toLower

/-- Python slice `l[i:j]` (for `0 ≤ i ≤ j`). -/
def pySlice (l : List α) (i j : ℕ) : List α := (l.drop i).take (j - i)

/-! ## Priority queue entries (`embedding_handler.py`, `QueuedRequest`) -/

/-- `QueuedRequest` dataclass: `priority` (0 = immediate, 1 = batch) and the
arrival `timestamp` (`time.time()`, a float).  The `request`/`future` payload
fields do not take part in the ordering and are omitted here. -/
structure QueuedRequest where
  priority : Int
  timestamp : ℚ
  deriving DecidableEq, Repr

/-- `QueuedRequest.__lt__`: compare priorities when they differ, otherwise
compare timestamps. -/
def QueuedRequest.lt (a b : QueuedRequest) : Bool :=
  if a.priority ≠ b.priority then decide (a.priority < b.priority)
  else decide (a.timestamp < b.timestamp)

/-! ## Context-window truncation (`_generate_embeddings_sync`, lines 709-738) -/

/-- `context_window = 8192 if 'bge-m3' in self.model_name.lower() else 512`. -/
def contextWindow (modelName : PyStr) : ℕ :=
  if pyIn "bge-m3".data (pyLower modelName) then 8192 else 512

/-- The character budget computed before encoding:
`max_safe_chars = context_window * 3`, clamped to `12000` when the context
window is at least `8192`, and to at least `1000`. -/
def maxSafeChars (modelName : PyStr) : ℕ :=
  let cw := contextWindow modelName
  let m := cw * 3
  let m := if cw ≥ 8192 then min m 12000 else m
  max 1000 m

/-- The truncation pass over the inputs: any text longer than `maxChars` is
replaced by its prefix `text[:maxChars]` and counted; the list of processed
texts and the truncation counter are returned. -/
def processTexts (maxChars : ℕ) : List PyStr → List PyStr × ℕ
  | [] => ([], 0)
  | t :: ts =>
    let rest := processTexts maxChars ts
    if t.length > maxChars then (t.take maxChars :: rest.1, rest.2 + 1)
    else (t :: rest.1, rest.2)

/-- The per-text effect of the truncation pass. -/
def pyTruncate (maxChars : ℕ) (t : PyStr) : PyStr :=
  if t.length > maxChars then t.take maxChars else t

theorem processTexts_eq_map (maxChars : ℕ) (ts : List PyStr) :
    processTexts maxChars ts =
      (ts.map (pyTruncate maxChars), ts.countP (fun t => t.length > maxChars)) := by
  induction ts with
  | nil => rfl
  | cons t ts ih =>
    simp only [processTexts, ih, List.map_cons, List.countP_cons, pyTruncate]
    by_cases h : t.length > maxChars <;> simp [h]

/-- C8: `QueuedRequest.__lt__` is the strict lexicographic order on
`(priority, timestamp)`: `a < b` iff `a.priority < b.priority`, or the
priorities are equal and `a.timestamp < b.timestamp`.  Hence the min-heap
serves lower priority values first and, within one priority class, FIFO by
arrival time. -/
theorem queuedRequest_lt_iff_lex (a b : QueuedRequest) :
    QueuedRequest.lt a b = true ↔
      (a.priority < b.priority ∨
        (a.priority = b.priority ∧ a.timestamp < b.timestamp)) := by
  unfold QueuedRequest.lt
  by_cases h : a.priority = b.priority <;> simp [h]

/-- C5: for every model name, the character budget computed by the code
equals `max(1000, min(3·C, 12000))` for the model's context window `C`; the
truncation pass keeps every input (same list length, nothing rejected),
replaces the `i`-th text by its prefix `text[:max_chars]` exactly when it is
longer than the budget, and the truncation counter counts exactly the
oversized inputs. -/
theorem truncation_spec (modelName : PyStr) (texts : List PyStr) (i : ℕ)
    (hi : i < texts.length) :
    maxSafeChars modelName =
        max 1000 (min (3 * contextWindow modelName) 12000) ∧
      (processTexts (maxSafeChars modelName) texts).1.length = texts.length ∧
      (processTexts (maxSafeChars modelName) texts).1[i]? =
        some (pyTruncate (maxSafeChars modelName) texts[i]) ∧
      (processTexts (maxSafeChars modelName) texts).2 =
        texts.countP (fun t => t.length > maxSafeChars modelName) := by
  refine ⟨?_, ?_, ?_, ?_⟩
  · unfold maxSafeChars contextWindow
    by_cases h : pyIn "bge-m3".data (pyLower modelName) = true <;>
      simp [h, Nat.mul_comm]
  · rw [processTexts_eq_map]; simp
  · rw [processTexts_eq_map]
    simp [List.getElem?_map, List.getElem?_eq_getElem hi]
  · rw [processTexts_eq_map]

/-! ## Stdio JSON-RPC dispatcher (`main.py`, `StdioJSONRPCServer._process_request`) -/

/-- Correlation ids, opaque in the dispatcher (only echoed). -/
abbrev RpcId := ℕ

/-- The `params` object of a request, opaque to the dispatcher (handed to the
routed handler unchanged). -/
abbrev RpcParams := ℕ

/-- A handler's result object, opaque to the dispatcher. -/
abbrev RpcValue := ℕ

/-- A request dictionary, after `json.loads` succeeded on the line and the
value was a dict: the `method`, `params` and `id` entries (each possibly
absent; a missing `params` defaults to `{}` already). -/
structure RpcRequest where
  method : Option String
  params : RpcParams
  id : Option RpcId
  deriving DecidableEq, Repr

/-- Outcome of `json.loads` on one stdin line: a parse failure, a JSON value
that is not a dict, or a request dict. -/
inductive ParsedLine where
  | parseError
  | nonDict
  | req (r : RpcRequest)
  deriving DecidableEq, Repr

/-- A JSON-RPC reply written to stdout (the constant `jsonrpc: "2.0"` field
is implicit). -/
inductive RpcResponse where
  | result (v : RpcValue) (id : Option RpcId)
  | error (code : Int) (message : String) (id : Option RpcId)
  deriving DecidableEq, Repr

/-- `StdioJSONRPCServer._error_response`. -/
def errorResponse (id : Option RpcId) (code : Int) (message : String) :
    RpcResponse :=
  .error code message id

/-- The `id` field of a reply. -/
def RpcResponse.respId : RpcResponse → Option RpcId
  | .result _ id => id
  | .error _ _ id => id

/-- The method names the `_process_request` if/elif chain routes. -/
def supportedMethods : List String :=
  ["generate_embeddings", "health_check", "download_model", "is_model_cached",
   "unload_model", "load_model", "extract_keyphrases_keybert",
   "extract_keyphrases_keybert_batch", "is_keybert_available", "get_status",
   "shutdown"]

/-- `StdioJSONRPCServer._process_request`, with the routed handlers abstracted
as one oracle `handlers` that either returns a result object or raises an
exception with a message.  A `none` return means no reply is written
(`start` prints only truthy responses); every branch of the source returns a
response dict, so the function never returns `none`. -/
def processRpcRequest (handlers : String → RpcParams → Except String RpcValue)
    (line : ParsedLine) : Option RpcResponse :=
  match line with
  | .parseError => some (errorResponse none (-32700) "Parse error")
  | .nonDict => some (errorResponse none (-32600) "Invalid Request")
  | .req r =>
    match r.method with
    | none => some (errorResponse r.id (-32600) "Missing method")
    | some m =>
      if supportedMethods.contains m then
        match handlers m r.params with
        | .ok v => some (.result v r.id)
        | .error e =>
          some (errorResponse r.id (-32603) ("Internal error: " ++ e))
      else some (errorResponse r.id (-32601) ("Method not found: " ++ m))

/-- C6: a line that is not valid JSON gets a `-32700` reply; a request whose
method is not one of the supported methods gets `-32601`; an exception
escaping a routed handler gets `-32603` with the exception text inside the
message; and every reply to a request dict echoes the request's `id`. -/
theorem dispatcher_error_codes
    (handlers : String → RpcParams → Except String RpcValue)
    (r : RpcRequest) (m : String) (e : String) (hm : r.method = some m) :
    processRpcRequest handlers .parseError =
        some (.error (-32700) "Parse error" none) ∧
      (supportedMethods.contains m = false →
        processRpcRequest handlers (.req r) =
          some (.error (-32601) ("Method not found: " ++ m) r.id)) ∧
      (supportedMethods.contains m = true →
        handlers m r.params = .error e →
        processRpcRequest handlers (.req r) =
          some (.error (-32603) ("Internal error: " ++ e) r.id)) ∧
      (∀ resp, processRpcRequest handlers (.req r) = some resp →
        resp.respId = r.id) := by
  refine ⟨rfl, ?_, ?_, ?_⟩
  · intro hns
    have hns2 : m ∉ supportedMethods := by simpa using hns
    simp [processRpcRequest, hm, hns2, errorResponse]
  · intro hs he
    have hs2 : m ∈ supportedMethods := by simpa using hs
    simp [processRpcRequest, hm, hs2, he, errorResponse]
  · intro resp hresp
    simp only [processRpcRequest, hm] at hresp
    by_cases hs2 : m ∈ supportedMethods
    · rw [if_pos (by simpa using hs2)] at hresp
      cases hh : handlers m r.params with
      | ok v =>
        rw [hh] at hresp
        cases hresp
        rfl
      | error e2 =>
        rw [hh] at hresp
        cases hresp
        rfl
    · rw [if_neg (by simpa using hs2)] at hresp
      cases hresp
      rfl

/-- C6 witness: a request for the unknown method `"nope"` with id 7 receives
the `-32601` reply carrying id 7. -/
theorem dispatcher_error_codes_witness :
    processRpcRequest (fun _ _ => .error "boom") (.req ⟨some "nope", 0, some 7⟩) =
      some (.error (-32601) ("Method not found: " ++ "nope") (some 7)) :=
  (dispatcher_error_codes (fun _ _ => .error "boom") ⟨some "nope", 0, some 7⟩
    "nope" "boom" rfl).2.1 (by decide)

/-- C7 counterexample: a well-formed request carrying no `id` does get a
reply (the dispatcher returns a response object, which `start` prints), so
the reply is not suppressed as the claim states. -/
theorem no_id_reply_not_suppressed :
    (processRpcRequest (fun _ _ => .ok 0)
      (.req ⟨some "get_status", 0, none⟩)).isSome = true := by
  decide

/-- C7 (amended): a well-formed request that carries no `id` still receives
exactly one reply, and that reply's `id` field is `null`. -/
theorem no_id_reply_echoes_null
    (handlers : String → RpcParams → Except String RpcValue)
    (r : RpcRequest) (hid : r.id = none) :
    ∃ resp, processRpcRequest handlers (.req r) = some resp ∧
      resp.respId = none := by
  cases hm : r.method with
  | none =>
    exact ⟨errorResponse r.id (-32600) "Missing method",
      by simp [processRpcRequest, hm],
      by simp [errorResponse, RpcResponse.respId, hid]⟩
  | some m =>
    by_cases hs : m ∈ supportedMethods
    · cases hh : handlers m r.params with
      | ok v =>
        exact ⟨.result v r.id, by simp [processRpcRequest, hm, hs, hh],
          by simp [RpcResponse.respId, hid]⟩
      | error e =>
        exact ⟨errorResponse r.id (-32603) ("Internal error: " ++ e),
          by simp [processRpcRequest, hm, hs, hh],
          by simp [errorResponse, RpcResponse.respId, hid]⟩
    · exact ⟨errorResponse r.id (-32601) ("Method not found: " ++ m),
        by simp [processRpcRequest, hm, hs],
        by simp [errorResponse, RpcResponse.respId, hid]⟩

/-- C7 amended witness: a `health_check` request without id receives a reply
whose id is `null`. -/
theorem no_id_reply_echoes_null_witness :
    ∃ resp, processRpcRequest (fun _ _ => .ok 3)
        (.req ⟨some "health_check", 0, none⟩) = some resp ∧
      resp.respId = none :=
  no_id_reply_echoes_null (fun _ _ => .ok 3) ⟨some "health_check", 0, none⟩ rfl

/-! ## Crawling pause (`embedding_handler.py`, `_processing_loop` and
`generate_embeddings` lines 515-529) -/

/-- The scheduler-relevant fields of `EmbeddingHandler`: the priority queue
(a bag popped by smallest `QueuedRequest.__lt__` element), the pause flag,
the time of the last immediate request, and a ghost flag recording whether
any immediate request was ever admitted (initially
`last_immediate_request = 0.0` and `is_batch_paused = False`). -/
structure SchedState where
  queue : List QueuedRequest
  isBatchPaused : Bool
  lastImmediateRequest : ℚ
  everImmediate : Bool
  deriving DecidableEq, Repr

/-- Pop of the `PriorityQueue`: remove a smallest element with respect to
`QueuedRequest.__lt__` (the first such, as a representative heap pop). -/
def popMin : List QueuedRequest → Option (QueuedRequest × List QueuedRequest)
  | [] => none
  | r :: rs =>
    match popMin rs with
    | none => some (r, [])
    | some (m, rest) =>
      if QueuedRequest.lt m r then some (m, r :: rest) else some (r, rs)

/-- The pause-expiry check at the top of `_processing_loop`: when paused and
`time.time() - last_immediate_request >= crawling_pause_duration`, resume
batch processing. -/
def crawlingPauseExpiry (now window : ℚ) (st : SchedState) : SchedState :=
  if st.isBatchPaused ∧ now - st.lastImmediateRequest ≥ window then
    { st with isBatchPaused := false }
  else st

/-- One iteration of `_processing_loop`: run the expiry check, dequeue; if the
dequeued request is batch (priority 1) while paused, put it back and sleep
(`none` begins execution); otherwise process it (`some r` begins execution
of `r`). -/
def processingLoopIter (now window : ℚ) (st : SchedState) :
    SchedState × Option QueuedRequest :=
  let st := crawlingPauseExpiry now window st
  match popMin st.queue with
  | none => (st, none)
  | some (r, rest) =>
    if r.priority = 1 ∧ st.isBatchPaused then
      ({ st with queue := r :: rest }, none)
    else
      ({ st with queue := rest }, some r)

/-- The pause bookkeeping on admission of an immediate request
(`generate_embeddings` lines 516-518): record the time and enter paused
mode. -/
def admitImmediate (now : ℚ) (st : SchedState) : SchedState :=
  { st with lastImmediateRequest := now, isBatchPaused := true,
            everImmediate := true }

/-- The entry point `generate_embeddings` as it affects the pause state:
immediate requests run `admitImmediate`; then the request itself is encoded
immediately via `run_in_executor(None, self._generate_embeddings_sync, ...)`
regardless of priority and of the pause (the returned flag records that the
request begins execution now). -/
def generateEmbeddingsEntry (immediate : Bool) (now : ℚ) (st : SchedState) :
    SchedState × Bool :=
  let st := if immediate then admitImmediate now st else st
  (st, true)

/-- States and times reachable by the scheduler: an initial state (pause off,
no immediate ever), admissions of immediate requests, enqueues, and loop
iterations, at nondecreasing times. -/
inductive SchedReach (window : ℚ) : ℚ → SchedState → Prop where
  | init (t : ℚ) (q : List QueuedRequest) :
      SchedReach window t ⟨q, false, 0, false⟩
  | admitImm {t : ℚ} {st : SchedState} (now : ℚ) :
      SchedReach window t st → t ≤ now →
      SchedReach window now (admitImmediate now st)
  | enqueue {t : ℚ} {st : SchedState} (now : ℚ) (r : QueuedRequest) :
      SchedReach window t st → t ≤ now →
      SchedReach window now { st with queue := r :: st.queue }
  | tick {t : ℚ} {st : SchedState} (now : ℚ) :
      SchedReach window t st → t ≤ now →
      SchedReach window now (processingLoopIter now window st).1


theorem crawlingPauseExpiry_lastImmediate (now window : ℚ) (st : SchedState) :
    (crawlingPauseExpiry now window st).lastImmediateRequest =
      st.lastImmediateRequest := by
  unfold crawlingPauseExpiry; split <;> rfl

theorem crawlingPauseExpiry_ever (now window : ℚ) (st : SchedState) :
    (crawlingPauseExpiry now window st).everImmediate = st.everImmediate := by
  unfold crawlingPauseExpiry; split <;> rfl

theorem processingLoopIter_fields (now window : ℚ) (st : SchedState) :
    ((processingLoopIter now window st).1).isBatchPaused =
        (crawlingPauseExpiry now window st).isBatchPaused ∧
      ((processingLoopIter now window st).1).lastImmediateRequest =
        st.lastImmediateRequest ∧
      ((processingLoopIter now window st).1).everImmediate =
        st.everImmediate := by
  unfold processingLoopIter
  cases hq : popMin (crawlingPauseExpiry now window st).queue with
  | none =>
    simp [hq, crawlingPauseExpiry_lastImmediate, crawlingPauseExpiry_ever]
  | some pr =>
    simp only [hq]
    split <;>
      simp [crawlingPauseExpiry_lastImmediate, crawlingPauseExpiry_ever]

theorem schedReach_invariant {window t : ℚ} {st : SchedState}
    (h : SchedReach window t st) :
    (st.isBatchPaused = true → st.everImmediate = true) ∧
      (st.isBatchPaused = false → st.everImmediate = true →
        st.lastImmediateRequest + window ≤ t) := by
  induction h with
  | init t q => exact ⟨fun h => by simp at h, fun _ h => by simp at h⟩
  | admitImm now _ hle ih =>
    exact ⟨fun _ => rfl, fun h => by simp [admitImmediate] at h⟩
  | enqueue now r _ hle ih =>
    exact ⟨ih.1, fun h1 h2 => le_trans (ih.2 h1 h2) hle⟩
  | tick now hr hle ih =>
    rename_i tOld stOld
    obtain ⟨hf1, hf2, hf3⟩ := processingLoopIter_fields now window stOld
    constructor
    · intro hp
      rw [hf3]
      rw [hf1] at hp
      have hpre : stOld.isBatchPaused = true := by
        unfold crawlingPauseExpiry at hp
        split at hp <;> simp_all
      exact ih.1 hpre
    · intro hp hev
      rw [hf1] at hp
      rw [hf3] at hev
      rw [hf2]
      unfold crawlingPauseExpiry at hp
      by_cases hc : stOld.isBatchPaused = true ∧
          now - stOld.lastImmediateRequest ≥ window
      · have := hc.2; linarith
      · rw [if_neg hc] at hp
        exact le_trans (ih.2 hp hev) hle

/-- C3 (amended): after an immediate admission, the processing loop does not
begin executing any queued batch (priority-1) request at any time before
`last_immediate_ts + pause_window`: in every reachable scheduler state, a
loop iteration inside the window only dispatches non-batch requests (a
dequeued batch item is re-enqueued instead). -/
theorem crawling_pause_blocks_batch {window t : ℚ} {st : SchedState}
    (h : SchedReach window t st) (now : ℚ) (hle : t ≤ now)
    (hev : st.everImmediate = true)
    (hwin : now < st.lastImmediateRequest + window) (r : QueuedRequest)
    (hr : (processingLoopIter now window st).2 = some r) :
    r.priority ≠ 1 := by
  have inv := schedReach_invariant h
  cases hp : st.isBatchPaused with
  | false =>
    exact absurd (le_trans (inv.2 hp hev) hle) (not_le.mpr hwin)
  | true =>
    have hexp : crawlingPauseExpiry now window st = st := by
      unfold crawlingPauseExpiry
      rw [if_neg]
      intro hc
      exact absurd hc.2 (not_le.mpr (by linarith))
    unfold processingLoopIter at hr
    rw [hexp] at hr
    cases hq : popMin st.queue with
    | none => simp [hq] at hr
    | some pr =>
      simp only [hq] at hr
      split at hr
      · simp at hr
      · rename_i hcond
        simp only [Option.some_inj] at hr
        intro hpri
        exact hcond (by rw [hr]; exact ⟨hpri, hp⟩)

/-- C3 witness: with the default 60-second window, a queue holding one
immediate request, and an immediate admission at time 0, the loop iteration
at time 30 (inside the window) dispatches only the immediate request. -/
theorem crawling_pause_blocks_batch_witness :
    (⟨0, 5⟩ : QueuedRequest).priority ≠ 1 :=
  @crawling_pause_blocks_batch 60 0
    (admitImmediate 0 ⟨[⟨0, 5⟩], false, 0, false⟩)
    (SchedReach.admitImm 0 (SchedReach.init 0 [⟨0, 5⟩]) le_rfl) 30 (by norm_num)
    rfl (by norm_num [admitImmediate]) ⟨0, 5⟩
    (by norm_num [processingLoopIter, crawlingPauseExpiry, admitImmediate,
      popMin, QueuedRequest.lt])

/-- C3 counterexample: the claim as stated fails, because
`generate_embeddings` encodes every request immediately on its own path,
bypassing the queue and the pause: after an immediate admission at time 0
with a 60-second window, a batch request submitted at time 1 (inside the
open interval) begins execution at once. -/
theorem batch_executes_inside_pause_window :
    ((generateEmbeddingsEntry false 1
        (generateEmbeddingsEntry true 0 ⟨[], false, 0, false⟩).1).2 = true) ∧
      (generateEmbeddingsEntry true 0
        ⟨[], false, 0, false⟩).1.lastImmediateRequest = 0 ∧
      ((1 : ℚ) - 0 < 60) := by
  refine ⟨rfl, rfl, by norm_num⟩

/-! ## Model switching (`main.py`, `EmbeddingRPCServer.load_model`) -/

/-- Worker lifecycle states of `EmbeddingRPCServer.state`. -/
inductive WorkerState where
  | idle
  | loading
  | ready
  | unloading
  | error
  deriving DecidableEq, Repr

/-- The `EmbeddingHandler` fields `load_model` touches: the resident model
weights (`self.model`, `none` when no model is resident) and the
`model_loaded` flag. -/
structure HandlerState where
  model : Option PyStr
  modelLoaded : Bool
  deriving DecidableEq, Repr

/-- The `EmbeddingRPCServer` fields `load_model` touches. -/
structure ServerState where
  modelName : Option PyStr
  handler : Option HandlerState
  semanticHandler : Bool
  state : WorkerState
  loadingProgress : ℕ
  deriving DecidableEq, Repr

/-- The model resident on the worker: the handler's loaded weights. -/
def residentModel (st : ServerState) : Option PyStr :=
  match st.handler with
  | some h => h.model
  | none => none

/-- The reply dict of `load_model` (fields present in every branch that
matters here). -/
structure LoadModelResult where
  success : Bool
  state : Option WorkerState
  currentModel : Option PyStr
  deriving DecidableEq, Repr

/-- `EmbeddingRPCServer.load_model`.  The construction of the new
`EmbeddingHandler` and its `initialize()` (which loads the new model) are
external effects whose combined outcome is abstracted by `initOk`; the
cache clears and garbage-collection passes of steps 2-3 have no functional
effect on this state.  On a failed initialization the new handler exists but
holds no model (`model = none`, `model_loaded = False`). -/
def handlerLoaded (st : ServerState) : Bool :=
  match st.handler with
  | some h => h.modelLoaded
  | none => false

def loadModel (requestModel : Option PyStr) (initOk : Bool)
    (st : ServerState) : ServerState × LoadModelResult :=
  match requestModel with
  | none =>
    (st, { success := false, state := none, currentModel := none })
  | some newModel =>
    if st.modelName = some newModel ∧ handlerLoaded st then
      -- same model already loaded: skip the reload
      (st, { success := true, state := some .ready,
             currentModel := st.modelName })
    else
      -- Step 1: state := unloading
      let st1 := { st with state := .unloading, loadingProgress := 0 }
      -- Step 2: unload the current model and drop handler references
      let st2 :=
        match st1.handler with
        | some _ => { st1 with handler := none, semanticHandler := false }
        | none => st1
      -- Step 4: state := loading, record the new model name
      let st3 := { st2 with state := .loading, loadingProgress := 10,
                            modelName := some newModel }
      -- Steps 5-6: create the new handler and initialize it
      if initOk then
        let st4 := { st3 with
          state := .ready, loadingProgress := 100,
          handler := some { model := some newModel, modelLoaded := true },
          semanticHandler := true }
        (st4, { success := true, state := some .ready,
                currentModel := some newModel })
      else
        let st4 := { st3 with
          state := .error,
          handler := some { model := none, modelLoaded := false } }
        (st4, { success := false, state := some .error,
                currentModel := none })

/-- C4: a `load_model(n)` call on a worker with a loaded model `m ≠ n`
either terminates with worker state `ready` and model `n` resident, or, if
the new load fails, in state `error` with no model resident; in both
outcomes the old model `m` is no longer resident. -/
theorem load_model_swap (m n : PyStr) (hmn : m ≠ n) (initOk : Bool)
    (st : ServerState) (hname : st.modelName = some m)
    (hh : st.handler = some { model := some m, modelLoaded := true }) :
    (((loadModel (some n) initOk st).1.state = .ready ∧
        (loadModel (some n) initOk st).1.modelName = some n ∧
        residentModel (loadModel (some n) initOk st).1 = some n) ∨
      ((loadModel (some n) initOk st).1.state = .error ∧
        residentModel (loadModel (some n) initOk st).1 = none)) ∧
      residentModel (loadModel (some n) initOk st).1 ≠ some m := by
  have hne : ¬(st.modelName = some n ∧ handlerLoaded st = true) := by
    intro hc
    rw [hname] at hc
    exact hmn (by simpa using hc.1)
  cases initOk with
  | true =>
    have hnm : ¬n = m := fun h => hmn h.symm
    refine ⟨Or.inl ⟨?_, ?_, ?_⟩, ?_⟩ <;>
      simp [loadModel, hne, hh, residentModel, hnm]
  | false =>
    refine ⟨Or.inr ⟨?_, ?_⟩, ?_⟩ <;>
      simp [loadModel, hne, hh, residentModel]

/-- C4 witness: swapping from model `"a"` to `"b"` with a successful load
ends ready with `"b"` resident and `"a"` gone. -/
theorem load_model_swap_witness :
    (((loadModel (some "b".data) true
          ⟨some "a".data, some ⟨some "a".data, true⟩, true, .ready, 100⟩).1.state
            = .ready ∧
        (loadModel (some "b".data) true
          ⟨some "a".data, some ⟨some "a".data, true⟩, true, .ready, 100⟩).1.modelName
            = some "b".data ∧
        residentModel (loadModel (some "b".data) true
          ⟨some "a".data, some ⟨some "a".data, true⟩, true, .ready, 100⟩).1
            = some "b".data) ∨
      ((loadModel (some "b".data) true
          ⟨some "a".data, some ⟨some "a".data, true⟩, true, .ready, 100⟩).1.state
            = .error ∧
        residentModel (loadModel (some "b".data) true
          ⟨some "a".data, some ⟨some "a".data, true⟩, true, .ready, 100⟩).1
            = none)) ∧
      residentModel (loadModel (some "b".data) true
        ⟨some "a".data, some ⟨some "a".data, true⟩, true, .ready, 100⟩).1
          ≠ some "a".data :=
  load_model_swap "a".data "b".data (by decide) true
    ⟨some "a".data, some ⟨some "a".data, true⟩, true, .ready, 100⟩ rfl rfl

/-- C10: calling `load_model(n)` when `n` is already the loaded, ready model
is a no-op: the reply reports success with state `ready` and current model
`n`, and the whole server state (handler, worker state, resident model) is
unchanged. -/
theorem load_model_same_noop (n : PyStr) (initOk : Bool) (st : ServerState)
    (h : HandlerState) (hname : st.modelName = some n)
    (hh : st.handler = some h) (hloaded : h.modelLoaded = true) :
    loadModel (some n) initOk st =
      (st, { success := true, state := some .ready,
             currentModel := some n }) := by
  have hc : st.modelName = some n ∧ handlerLoaded st = true :=
    ⟨hname, by simp [handlerLoaded, hh, hloaded]⟩
  simp [loadModel, hc.1, hc.2, hname]

/-- C10 witness: reloading the already-loaded model `"a"` returns success
and leaves the state untouched. -/
theorem load_model_same_noop_witness :
    loadModel (some "a".data) false
        ⟨some "a".data, some ⟨some "a".data, true⟩, true, .ready, 100⟩ =
      (⟨some "a".data, some ⟨some "a".data, true⟩, true, .ready, 100⟩,
        { success := true, state := some .ready,
          currentModel := some "a".data }) :=
  load_model_same_noop "a".data false
    ⟨some "a".data, some ⟨some "a".data, true⟩, true, .ready, 100⟩
    ⟨some "a".data, true⟩ rfl rfl rfl

/-! ## Memory-governed batched encoding
(`embedding_handler.py`, `_generate_embeddings_sync`, lines 693-926) -/

/-- Outcome of one call to `self.model.encode(batch, batch_size=b, ...)`:
a matrix of embedding rows, or an exception.  `catchable` marks exception
classes caught by the inner `except (RuntimeError,
torch.cuda.OutOfMemoryError)` clause; other exception types propagate to the
outer handler directly. -/
inductive EncodeOutcome where
  | ok (rows : List (List ℚ))
  | exc (catchable : Bool) (msg : PyStr)

/-- An encoder oracle: the external library call, as a function of the batch
slice and the requested batch size. -/
abbrev Encoder := List PyStr → ℕ → EncodeOutcome

/-- The OOM test on the lowercased exception text:
`'out of memory' in error_str or 'oom' in error_str or 'memory' in
error_str`. -/
def isOOMError (msg : PyStr) : Bool :=
  let s := pyLower msg
  pyIn "out of memory".data s || pyIn "oom".data s || pyIn "memory".data s

/-- `_adaptive_batch_size_on_oom`: `max(1, current_batch_size // 2)`. -/
def adaptiveBatchSizeOnOOM (currentBatchSize : ℕ) : ℕ :=
  max 1 (currentBatchSize / 2)

/-- Result of the inner OOM-recovery loop
(`while not batch_success and attempts < 3`) for one batch:
either a successfully encoded matrix together with the final `batch_end`,
an exit with `batch_success == False` after three failed attempts (the slice
ending at `batch_end` is silently skipped), or a re-raised exception. -/
inductive BatchOutcome where
  | success (rows : List (List ℚ)) (batchEnd : ℕ)
  | skipped (batchEnd : ℕ)
  | raised (msg : PyStr)

/-- The inner retry loop for one batch.  `fuel` counts the attempts still
allowed by `attempts < 3` (initially 3).  On a catchable OOM with
`current_batch_size > 1`, memory is cleared (no functional effect), the
batch size is halved, and the slice is re-cut as
`texts[i : i + current_batch_size]` with `batch_end` updated; on OOM at
batch size 1 and on all non-OOM errors, the exception is re-raised. -/
def tryBatch (encode : Encoder) (texts : List PyStr) (i : ℕ) :
    List PyStr → ℕ → ℕ → ℕ → BatchOutcome
  | _, _, batchEnd, 0 => .skipped batchEnd
  | batch, current, batchEnd, fuel + 1 =>
    match encode batch current with
    | .ok rows => .success rows batchEnd
    | .exc catchable msg =>
      if catchable ∧ isOOMError msg then
        if current > 1 then
          let newCur := adaptiveBatchSizeOnOOM current
          tryBatch encode texts i (pySlice texts i (i + newCur)) newCur
            (i + newCur) fuel
        else .raised msg
      else .raised msg

/-- The outer batching loop (`while i < total_texts`): cut the next slice
`texts[i : min(i + batch_size, total)]`, run the retry loop on it, collect
the matrix on success, silently move on when the retry loop exhausted its
attempts, and propagate raised exceptions.  `fuel` bounds the number of
iterations (each iteration advances `i` by at least one when
`batch_size ≥ 1`). -/
def batchLoop (encode : Encoder) (texts : List PyStr) (batchSize : ℕ) :
    ℕ → ℕ → Except PyStr (List (List (List ℚ)))
  | _, 0 => .ok []
  | i, fuel + 1 =>
    if i < texts.length then
      let batchEnd := min (i + batchSize) texts.length
      let batch := pySlice texts i batchEnd
      match tryBatch encode texts i batch batch.length batchEnd 3 with
      | .success rows newEnd =>
        match batchLoop encode texts batchSize newEnd fuel with
        | .ok mats => .ok (rows :: mats)
        | .error e => .error e
      | .skipped newEnd => batchLoop encode texts batchSize newEnd fuel
      | .raised msg => .error msg
    else .ok []

/-- `np.vstack(embeddings_list)` preceded by the single-matrix shortcut:
one matrix is taken as is; several are concatenated row-wise; an empty list
makes `np.vstack` raise (`none`). -/
def vstack : List (List (List ℚ)) → Option (List (List ℚ))
  | [] => none
  | [m] => some m
  | ms => some ms.flatten

/-- An `EmbeddingVector` as built in the conversion loop: the row, its
length as `dimensions`, the model name, and the enumeration index standing
for the generated `chunk_id` (the wall-clock `created_at` is dropped). -/
structure EmbeddingVector where
  vector : List ℚ
  dimensions : ℕ
  model : PyStr
  chunkIndex : ℕ
  deriving DecidableEq, Repr

/-- The conversion loop `for i, embedding in enumerate(embeddings)` starting
at index `i0`. -/
def toEmbeddingVectors (modelName : PyStr) : List (List ℚ) → ℕ →
    List EmbeddingVector
  | [], _ => []
  | row :: rows, i =>
    { vector := row, dimensions := row.length, model := modelName,
      chunkIndex := i } :: toEmbeddingVectors modelName rows (i + 1)

/-- `_generate_embeddings_sync`: truncate the inputs to the character
budget, run the batched encode with OOM recovery, fall back to one CPU
encode of all processed texts if the accelerator path raised, and convert
the rows to `EmbeddingVector`s.  `encode` is the accelerator-path oracle and
`cpuEncode` the `device='cpu'` oracle; a `.error` result models the
exception `_generate_embeddings_sync` raises. -/
def generateEmbeddingsSync (modelName : PyStr) (encode cpuEncode : Encoder)
    (optimalBatchSize : ℕ) (texts : List PyStr) :
    Except PyStr (List EmbeddingVector) :=
  let maxChars := maxSafeChars modelName
  let processed := (processTexts maxChars texts).1
  let attempt : Except PyStr (List (List ℚ)) :=
    match batchLoop encode processed optimalBatchSize 0 processed.length with
    | .ok mats =>
      match vstack mats with
      | some m => .ok m
      | none => .error "need at least one array to concatenate".data
    | .error e => .error e
  let encoded : Except PyStr (List (List ℚ)) :=
    match attempt with
    | .ok m => .ok m
    | .error _ =>
      match cpuEncode processed optimalBatchSize with
      | .ok rows => .ok rows
      | .exc _ msg =>
        .error ("Encoding failed on both device and CPU: ".data ++ msg)
  match encoded with
  | .error e => .error e
  | .ok rows => .ok (toEmbeddingVectors modelName rows 0)

/-- The fields of the `EmbeddingResponse` that `generate_embeddings` fills
from the sync result (timings and model info dropped). -/
structure EmbeddingResponse where
  embeddings : List EmbeddingVector
  success : Bool
  error : Option PyStr
  deriving DecidableEq, Repr

/-- `EmbeddingHandler.generate_embeddings`, success and exception paths of
the call to `_generate_embeddings_sync`. -/
def generateEmbeddings (modelName : PyStr) (encode cpuEncode : Encoder)
    (optimalBatchSize : ℕ) (texts : List PyStr) : EmbeddingResponse :=
  match generateEmbeddingsSync modelName encode cpuEncode optimalBatchSize
      texts with
  | .ok embs => { embeddings := embs, success := true, error := none }
  | .error e => { embeddings := [], success := false, error := some e }

theorem toEmbeddingVectors_length (modelName : PyStr) (rows : List (List ℚ))
    (i0 : ℕ) : (toEmbeddingVectors modelName rows i0).length = rows.length := by
  induction rows generalizing i0 with
  | nil => rfl
  | cons row rows ih => simp [toEmbeddingVectors, ih]

theorem toEmbeddingVectors_getElem (modelName : PyStr)
    (rows : List (List ℚ)) (i0 j : ℕ) :
    (toEmbeddingVectors modelName rows i0)[j]? =
      rows[j]?.map (fun row =>
        { vector := row, dimensions := row.length, model := modelName,
          chunkIndex := i0 + j }) := by
  induction rows generalizing i0 j with
  | nil => simp [toEmbeddingVectors]
  | cons row rows ih =>
    cases j with
    | zero => simp [toEmbeddingVectors]
    | succ j =>
      simp only [toEmbeddingVectors, List.getElem?_cons_succ, ih]
      have : i0 + 1 + j = i0 + (j + 1) := by omega
      rw [this]

theorem vstack_of_ne_nil (ms : List (List (List ℚ))) (h : ms ≠ []) :
    vstack ms = some ms.flatten := by
  match ms with
  | [] => exact absurd rfl h
  | [m] => simp [vstack]
  | a :: b :: rest => simp [vstack]

theorem pySlice_length (l : List α) (i e : ℕ) (he : e ≤ l.length) :
    (pySlice l i e).length = e - i := by
  unfold pySlice
  rw [List.length_take, List.length_drop]
  omega

theorem pySlice_append_drop (l : List α) (i e : ℕ) (hie : i ≤ e) :
    pySlice l i e ++ l.drop e = l.drop i := by
  unfold pySlice
  have hd : l.drop e = (l.drop i).drop (e - i) := by
    rw [List.drop_drop]
    congr 1
    omega
  rw [hd]
  exact List.take_append_drop _ _

/-- Instrumentation of `batchLoop`: whether some batch's retry loop exits
with `batch_success == False` (its three attempts exhausted), i.e. whether a
slice is silently skipped during the run.  The recursion is the same as
`batchLoop`. -/
def batchLoopSkips (encode : Encoder) (texts : List PyStr) (batchSize : ℕ) :
    ℕ → ℕ → Bool
  | _, 0 => false
  | i, fuel + 1 =>
    if i < texts.length then
      let batchEnd := min (i + batchSize) texts.length
      let batch := pySlice texts i batchEnd
      match tryBatch encode texts i batch batch.length batchEnd 3 with
      | .success _ newEnd => batchLoopSkips encode texts batchSize newEnd fuel
      | .skipped _ => true
      | .raised _ => false
    else false

theorem tryBatch_success_encodes (encode : Encoder)
    (embedOne : PyStr → List ℚ)
    (hok : ∀ batch bs rows, encode batch bs = .ok rows →
      rows = batch.map embedOne)
    (texts : List PyStr) (i : ℕ) :
    ∀ fuel bEnd cur rows newEnd, i < bEnd → bEnd ≤ texts.length →
      cur = bEnd - i →
      tryBatch encode texts i (pySlice texts i bEnd) cur bEnd fuel =
        .success rows newEnd →
      rows = (pySlice texts i newEnd).map embedOne ∧ i < newEnd ∧
        newEnd ≤ bEnd := by
  intro fuel
  induction fuel with
  | zero =>
    intro bEnd cur rows newEnd h1 h2 hcur h3
    simp [tryBatch] at h3
  | succ fuel ih =>
    intro bEnd cur rows newEnd h1 h2 hcur h3
    cases he : encode (pySlice texts i bEnd) cur with
    | ok rows0 =>
      simp only [tryBatch, he] at h3
      injection h3 with ha hb
      subst ha
      subst hb
      exact ⟨hok _ _ _ he, h1, le_refl _⟩
    | exc c msg =>
      simp only [tryBatch, he] at h3
      by_cases hcm : c = true ∧ isOOMError msg = true
      · rw [if_pos hcm] at h3
        by_cases hgt : cur > 1
        · rw [if_pos hgt] at h3
          have hone : 1 ≤ adaptiveBatchSizeOnOOM cur := le_max_left _ _
          have hhalf : adaptiveBatchSizeOnOOM cur ≤ bEnd - i := by
            have hd2 : cur / 2 ≤ cur := Nat.div_le_self _ _
            have hm : adaptiveBatchSizeOnOOM cur = max 1 (cur / 2) := rfl
            rw [hm]
            exact max_le (by omega) (by omega)
          obtain ⟨hr, hn1, hn2⟩ := ih (i + adaptiveBatchSizeOnOOM cur)
            (adaptiveBatchSizeOnOOM cur) rows newEnd (by omega) (by omega)
            (by omega) h3
          exact ⟨hr, hn1, by omega⟩
        · rw [if_neg hgt] at h3
          simp at h3
      · rw [if_neg hcm] at h3
        simp at h3

theorem batchLoop_ok_of_noSkip (encode : Encoder)
    (embedOne : PyStr → List ℚ)
    (hok : ∀ batch bs rows, encode batch bs = .ok rows →
      rows = batch.map embedOne)
    (texts : List PyStr) (bs : ℕ) (hbs : 1 ≤ bs) :
    ∀ fuel i mats, texts.length - i ≤ fuel →
      batchLoopSkips encode texts bs i fuel = false →
      batchLoop encode texts bs i fuel = .ok mats →
      mats.flatten = (texts.drop i).map embedOne := by
  intro fuel
  induction fuel with
  | zero =>
    intro i mats hf hskip hloop
    simp only [batchLoop] at hloop
    injection hloop with hm
    subst hm
    have hle : texts.length ≤ i := by omega
    simp [List.drop_eq_nil_of_le hle]
  | succ fuel ih =>
    intro i mats hf hskip hloop
    by_cases hil : i < texts.length
    · simp only [batchLoop, if_pos hil] at hloop
      simp only [batchLoopSkips, if_pos hil] at hskip
      cases ht : tryBatch encode texts i
          (pySlice texts i (min (i + bs) texts.length))
          (pySlice texts i (min (i + bs) texts.length)).length
          (min (i + bs) texts.length) 3 with
      | success rows newEnd =>
        simp only [ht] at hloop hskip
        cases hrec : batchLoop encode texts bs newEnd fuel with
        | ok mats2 =>
          simp only [hrec] at hloop
          injection hloop with hm
          subst hm
          have hcurlen : (pySlice texts i
              (min (i + bs) texts.length)).length =
                min (i + bs) texts.length - i :=
            pySlice_length _ _ _ (by omega)
          obtain ⟨hr, hn1, hn2⟩ := tryBatch_success_encodes encode embedOne
            hok texts i 3 (min (i + bs) texts.length) _ rows newEnd
            (by omega) (by omega) hcurlen ht
          rw [List.flatten_cons, hr, ih newEnd mats2 (by omega) hskip hrec,
            ← List.map_append, pySlice_append_drop texts i newEnd (by omega)]
        | error e =>
          simp only [hrec] at hloop
          exact Except.noConfusion hloop
      | skipped newEnd =>
        simp only [ht] at hskip
        exact Bool.noConfusion hskip
      | raised msg =>
        simp only [ht] at hloop
        exact Except.noConfusion hloop
    · simp only [batchLoop, if_neg hil] at hloop
      injection hloop with hm
      subst hm
      have hle : texts.length ≤ i := by omega
      simp [List.drop_eq_nil_of_le hle]

theorem generateEmbeddings_conclusions (modelName : PyStr)
    (encode cpuEncode : Encoder) (bs : ℕ) (texts : List PyStr) (D : ℕ)
    (embedOne : PyStr → List ℚ) (hD : ∀ t, (embedOne t).length = D)
    (hsync : generateEmbeddingsSync modelName encode cpuEncode bs texts =
      .ok (toEmbeddingVectors modelName
        ((processTexts (maxSafeChars modelName) texts).1.map embedOne) 0))
    (i : ℕ) (hi : i < texts.length) :
    (generateEmbeddings modelName encode cpuEncode bs
        texts).embeddings.length = texts.length ∧
      (generateEmbeddings modelName encode cpuEncode bs
        texts).embeddings[i]? =
        some { vector :=
                 embedOne (pyTruncate (maxSafeChars modelName) texts[i]),
               dimensions := D, model := modelName, chunkIndex := i } := by
  have hproc : (processTexts (maxSafeChars modelName) texts).1 =
      texts.map (pyTruncate (maxSafeChars modelName)) := by
    rw [processTexts_eq_map]
  have hplen : (processTexts (maxSafeChars modelName) texts).1.length =
      texts.length := by
    rw [hproc, List.length_map]
  constructor
  · simp [generateEmbeddings, hsync, toEmbeddingVectors_length, hplen]
  · simp [generateEmbeddings, hsync, toEmbeddingVectors_getElem,
      List.getElem?_map, hproc, List.getElem?_eq_getElem hi, hD]

/-- C2 (amended): for every successful `generate_embeddings` call in which
no batch exhausts its three OOM attempts (`batchLoopSkips` is false — in
particular whenever encode never raises, but also when adaptive halving
recovers from OOM within the retry budget), against encoders that return
the per-input encodings of dimension `D` whenever they succeed, the
response contains exactly one embedding per input text, the `i`-th
embedding is the encoding of the (truncated) `i`-th input, and its
`dimensions` field equals the encoded row's length `D`. -/
theorem embeddings_parallel_to_inputs (modelName : PyStr)
    (texts : List PyStr) (D : ℕ) (embedOne : PyStr → List ℚ)
    (encode cpuEncode : Encoder)
    (hok : ∀ batch bs rows, encode batch bs = .ok rows →
      rows = batch.map embedOne)
    (hcpu : ∀ batch bs rows, cpuEncode batch bs = .ok rows →
      rows = batch.map embedOne)
    (hD : ∀ t, (embedOne t).length = D) (bs : ℕ) (hbs : 1 ≤ bs)
    (hns : batchLoopSkips encode
      (processTexts (maxSafeChars modelName) texts).1 bs 0
      (processTexts (maxSafeChars modelName) texts).1.length = false)
    (hsuccess : (generateEmbeddings modelName encode cpuEncode bs
      texts).success = true)
    (i : ℕ) (hi : i < texts.length) :
    (generateEmbeddings modelName encode cpuEncode bs
        texts).embeddings.length = texts.length ∧
      (generateEmbeddings modelName encode cpuEncode bs
        texts).embeddings[i]? =
        some { vector :=
                 embedOne (pyTruncate (maxSafeChars modelName) texts[i]),
               dimensions := D, model := modelName, chunkIndex := i } := by
  have hproc : (processTexts (maxSafeChars modelName) texts).1 =
      texts.map (pyTruncate (maxSafeChars modelName)) := by
    rw [processTexts_eq_map]
  have hplen : (processTexts (maxSafeChars modelName) texts).1.length =
      texts.length := by
    rw [hproc, List.length_map]
  cases hb : batchLoop encode (processTexts (maxSafeChars modelName) texts).1
      bs 0 (processTexts (maxSafeChars modelName) texts).1.length with
  | ok mats =>
    have hflat := batchLoop_ok_of_noSkip encode embedOne hok
      (processTexts (maxSafeChars modelName) texts).1 bs hbs
      (processTexts (maxSafeChars modelName) texts).1.length 0 mats
      (by omega) hns hb
    rw [List.drop_zero] at hflat
    have hmatsne : mats ≠ [] := by
      intro hnil
      rw [hnil] at hflat
      have hl := congrArg List.length hflat
      rw [List.length_map, hplen] at hl
      simp at hl
      omega
    have hsync : generateEmbeddingsSync modelName encode cpuEncode bs texts =
        .ok (toEmbeddingVectors modelName
          ((processTexts (maxSafeChars modelName) texts).1.map embedOne)
          0) := by
      unfold generateEmbeddingsSync
      simp only [hb, vstack_of_ne_nil mats hmatsne, hflat]
    exact generateEmbeddings_conclusions modelName encode cpuEncode bs texts
      D embedOne hD hsync i hi
  | error e =>
    cases hc : cpuEncode (processTexts (maxSafeChars modelName) texts).1 bs
        with
    | ok rows =>
      have hrows := hcpu _ _ _ hc
      have hsync : generateEmbeddingsSync modelName encode cpuEncode bs
          texts = .ok (toEmbeddingVectors modelName
            ((processTexts (maxSafeChars modelName) texts).1.map embedOne)
            0) := by
        unfold generateEmbeddingsSync
        simp only [hb, hc, hrows]
      exact generateEmbeddings_conclusions modelName encode cpuEncode bs
        texts D embedOne hD hsync i hi
    | exc c msg =>
      exfalso
      have hfail : (generateEmbeddings modelName encode cpuEncode bs
          texts).success = false := by
        simp [generateEmbeddings, generateEmbeddingsSync, hb, hc]
      rw [hsuccess] at hfail
      simp at hfail

/-- An encoder that raises an OOM condition on every batch size above 2 and
encodes each text to the row `[1]` at batch sizes 1 and 2 (the spec's
fault-injection scenario: adaptive halving recovers within the retry
budget). -/
def oomOverTwo : Encoder := fun batch bs =>
  if bs > 2 then .exc true "oom".data else .ok (batch.map fun _ => [(1 : ℚ)])

/-- Four short input texts. -/
def fourTexts : List PyStr :=
  ["t0".data, "t1".data, "t2".data, "t3".data]

/-- C2 witness: four texts at initial batch size 8 against an encoder that
OOMs above batch size 2: halving recovers (8 → 4 → 2), no batch exhausts
its attempts, the call succeeds, and the response holds 4 embeddings with
the first one the encoding of the first input. -/
theorem embeddings_parallel_to_inputs_witness :
    (generateEmbeddings "model".data oomOverTwo oomOverTwo 8
        fourTexts).embeddings.length = fourTexts.length ∧
      (generateEmbeddings "model".data oomOverTwo oomOverTwo 8
        fourTexts).embeddings[0]? =
        some { vector := [(1 : ℚ)], dimensions := 1, model := "model".data,
               chunkIndex := 0 } :=
  embeddings_parallel_to_inputs "model".data fourTexts 1 (fun _ => [(1 : ℚ)])
    oomOverTwo oomOverTwo
    (by
      intro batch bs rows h
      unfold oomOverTwo at h
      split at h
      · simp at h
      · injection h with h2
        exact h2.symm)
    (by
      intro batch bs rows h
      unfold oomOverTwo at h
      split at h
      · simp at h
      · injection h with h2
        exact h2.symm)
    (fun _ => rfl) 8 (by decide) (by decide) (by decide) 0 (by decide)

/-- An encoder that raises an OOM condition on every batch size above 1 and
encodes each text to the row `[1]` at batch size 1 (the `k = 1` case of the
claim). -/
def oomOverOne : Encoder := fun batch bs =>
  if bs > 1 then .exc true "oom".data else .ok (batch.map fun _ => [(1 : ℚ)])

/-- Eight short input texts. -/
def eightTexts : List PyStr :=
  ["t0".data, "t1".data, "t2".data, "t3".data, "t4".data, "t5".data,
   "t6".data, "t7".data]

/-- C1: at initial batch size 8 against an encoder that raises OOM for every
batch size above 1, the retry loop for the first batch fails three times
(sizes 8, 4, 2), exits without ever trying batch size 1, and the slice
`texts[0:1]` is silently dropped: the call reports success with only 7
embeddings for the 8 inputs (the embeddings produced are those of indices
1..7), and no failure is surfaced.  This contradicts the claimed behaviour
that `b = 1` is reached, that a failure is surfaced only when `b = 1` still
fails, and that a successful response holds exactly `|texts|` embeddings. -/
theorem oom_retry_budget_skips_slice :
    (generateEmbeddings "model".data oomOverOne oomOverOne 8
        eightTexts).success = true ∧
      (generateEmbeddings "model".data oomOverOne oomOverOne 8
        eightTexts).embeddings.length = 7 ∧
      (generateEmbeddings "model".data oomOverOne oomOverOne 8
        eightTexts).error = none ∧
      eightTexts.length = 8 := by
  decide

/-- C2 counterexample: the claim as stated fails on the OOM retry budget
bug: a call that reports success whose embedding count differs from the
input count. -/
theorem success_without_all_embeddings :
    (generateEmbeddings "model".data oomOverOne oomOverOne 8
        eightTexts).success = true ∧
      (generateEmbeddings "model".data oomOverOne oomOverOne 8
        eightTexts).embeddings.length ≠ eightTexts.length := by
  decide

/-! ## KeyBERT weighted re-ranking
(`semantic_handler.py`, `extract_keyphrases` and `_apply_weighted_scoring`) -/

/-- A `{"text": ..., "score": ...}` item. -/
structure ScoredPhrase where
  text : PyStr
  score : ℚ
  deriving DecidableEq, Repr

/-- The structured candidate lists a caller may supply (an absent or empty
category behaves identically: its check is skipped). -/
structure StructuredCandidates where
  metadata : List PyStr
  headers : List PyStr
  entities : List PyStr
  emphasized : List PyStr
  captions : List PyStr
  deriving DecidableEq, Repr

/-- One candidate check inside `_get_structural_weight`:
`candidate.lower() in phrase_lower or phrase_lower in candidate.lower()`. -/
def candidateMatch (phraseLower cand : PyStr) : Bool :=
  pyIn (pyLower cand) phraseLower || pyIn phraseLower (pyLower cand)

/-- `_get_structural_weight`: first matching category wins, checked in the
order metadata (1.0), headers (0.9), entities (0.8), emphasized (0.7),
captions (0.6); default weight 0.4. -/
def getStructuralWeight (phrase : PyStr) (sc : StructuredCandidates) : ℚ :=
  let phraseLower := pyLower phrase
  if sc.metadata.any (candidateMatch phraseLower) then 1
  else if sc.headers.any (candidateMatch phraseLower) then 9/10
  else if sc.entities.any (candidateMatch phraseLower) then 4/5
  else if sc.emphasized.any (candidateMatch phraseLower) then 7/10
  else if sc.captions.any (candidateMatch phraseLower) then 3/5
  else 2/5

/-- `_apply_weighted_scoring`: when the structural weight exceeds 0.4, the
final score is `structural_weight * 0.3 + keybert_score * 0.7`; otherwise
the KeyBERT score is kept unchanged. -/
def applyWeightedScoring (scoredPhrases : List ScoredPhrase)
    (sc : StructuredCandidates) : List ScoredPhrase :=
  scoredPhrases.map fun p =>
    let w := getStructuralWeight p.text sc
    if w > 2/5 then { p with score := w * (3/10) + p.score * (7/10) } else p

/-- `scored_phrases.sort(key=lambda x: x["score"], reverse=True)`: a stable
sort by score descending. -/
def sortByScoreDesc (l : List ScoredPhrase) : List ScoredPhrase :=
  l.insertionSort fun a b => b.score ≤ a.score

/-- The tail of `extract_keyphrases` after the KeyBERT call (whose output is
the oracle argument `keywords`, already in `(text, score)` form): apply
weighted scoring when structured candidates were supplied, sort by final
score descending, and truncate to `top_n`. -/
def extractKeyphrasesRerank (keywords : List (PyStr × ℚ))
    (sc : Option StructuredCandidates) (topN : ℕ) : List ScoredPhrase :=
  let scored := keywords.map fun kw => { text := kw.1, score := kw.2 }
  let scored :=
    match sc with
    | some c => applyWeightedScoring scored c
    | none => scored
  (sortByScoreDesc scored).take topN

/-- C9: with structured candidates supplied, the returned list is sorted by
score descending and truncated to `top_n`, and every returned item arises
from some KeyBERT keyword `(t, s)` whose final score is
`0.3·w + 0.7·s` when the structural weight `w` of `t` (1.0 metadata, 0.9
headers, 0.8 entities, 0.7 emphasized, 0.6 captions, checked in that order)
exceeds the 0.4 default, and the unchanged `s` otherwise. -/
theorem keyphrase_rerank (keywords : List (PyStr × ℚ))
    (sc : StructuredCandidates) (topN : ℕ) (p : ScoredPhrase)
    (hp : p ∈ extractKeyphrasesRerank keywords (some sc) topN) :
    (extractKeyphrasesRerank keywords (some sc) topN).Pairwise
        (fun a b => b.score ≤ a.score) ∧
      (extractKeyphrasesRerank keywords (some sc) topN).length =
        min topN keywords.length ∧
      ∃ t s, (t, s) ∈ keywords ∧ p.text = t ∧
        p.score =
          (if getStructuralWeight t sc > 2/5 then
            getStructuralWeight t sc * (3/10) + s * (7/10)
          else s) := by
  haveI : IsTotal ScoredPhrase (fun a b => b.score ≤ a.score) :=
    ⟨fun a b => le_total b.score a.score⟩
  haveI : IsTrans ScoredPhrase (fun a b => b.score ≤ a.score) :=
    ⟨fun _ _ _ h1 h2 => le_trans h2 h1⟩
  refine ⟨?_, ?_, ?_⟩
  · have hs := List.sorted_insertionSort
      (fun a b : ScoredPhrase => b.score ≤ a.score)
      (applyWeightedScoring (keywords.map fun kw =>
        { text := kw.1, score := kw.2 }) sc)
    exact hs.sublist (List.take_sublist topN _)
  · unfold extractKeyphrasesRerank sortByScoreDesc
    rw [List.length_take, (List.perm_insertionSort _ _).length_eq]
    unfold applyWeightedScoring
    rw [List.length_map, List.length_map]
  · have hp2 : p ∈ sortByScoreDesc (applyWeightedScoring
        (keywords.map fun kw => { text := kw.1, score := kw.2 }) sc) :=
      List.mem_of_mem_take hp
    have hp3 : p ∈ applyWeightedScoring
        (keywords.map fun kw => { text := kw.1, score := kw.2 }) sc :=
      (List.perm_insertionSort _ _).mem_iff.mp hp2
    unfold applyWeightedScoring at hp3
    rw [List.map_map] at hp3
    obtain ⟨⟨t, s⟩, hts, hmk⟩ := List.mem_map.mp hp3
    refine ⟨t, s, hts, ?_, ?_⟩
    · simp only [Function.comp] at hmk
      by_cases hw : getStructuralWeight t sc > 2/5 <;>
        simp [hw] at hmk <;> rw [← hmk]
    · simp only [Function.comp] at hmk
      by_cases hw : getStructuralWeight t sc > 2/5 <;>
        simp [hw] at hmk ⊢ <;> rw [← hmk]

/-- C9 witness: two keywords, no matching structured candidates, `top_n`
of 1: the result is sorted descending, has one item, and that item keeps its
KeyBERT score (no boost at the default weight). -/
theorem keyphrase_rerank_witness :
    (extractKeyphrasesRerank [("aa".data, 1), ("bb".data, 0)]
        (some ⟨[], [], [], [], []⟩) 1).Pairwise
        (fun a b => b.score ≤ a.score) ∧
      (extractKeyphrasesRerank [("aa".data, 1), ("bb".data, 0)]
        (some ⟨[], [], [], [], []⟩) 1).length = min 1 2 ∧
      ∃ t s, (t, s) ∈ [(("aa".data : PyStr), (1 : ℚ)), ("bb".data, 0)] ∧
        ({ text := "aa".data, score := 1 } : ScoredPhrase).text = t ∧
        ({ text := "aa".data, score := 1 } : ScoredPhrase).score =
          (if getStructuralWeight t ⟨[], [], [], [], []⟩ > 2/5 then
            getStructuralWeight t ⟨[], [], [], [], []⟩ * (3/10) + s * (7/10)
          else s) :=
  keyphrase_rerank [("aa".data, 1), ("bb".data, 0)] ⟨[], [], [], [], []⟩ 1
    { text := "aa".data, score := 1 }
    (by norm_num [extractKeyphrasesRerank, applyWeightedScoring,
      getStructuralWeight, sortByScoreDesc, List.insertionSort,
      List.orderedInsert])

/-- C5 witness: a 2000-character text against a 512-token context window
(budget 1536) is truncated to its 1536-character prefix; a short text is
kept; nothing is rejected; the counter reads 1. -/
theorem truncation_spec_witness :
    maxSafeChars "m".data =
        max 1000 (min (3 * contextWindow "m".data) 12000) ∧
      (processTexts (maxSafeChars "m".data)
        [List.replicate 2000 'x', "ok".data]).1.length =
        ([List.replicate 2000 'x', "ok".data] : List PyStr).length ∧
      (processTexts (maxSafeChars "m".data)
        [List.replicate 2000 'x', "ok".data]).1[0]? =
        some (pyTruncate (maxSafeChars "m".data) (List.replicate 2000 'x')) ∧
      (processTexts (maxSafeChars "m".data)
        [List.replicate 2000 'x', "ok".data]).2 =
        ([List.replicate 2000 'x', "ok".data] : List PyStr).countP
          (fun t => t.length > maxSafeChars "m".data) :=
  truncation_spec "m".data [List.replicate 2000 'x', "ok".data] 0 (by decide)
